import Mathlib

/-!
Verification development for the renodeAPI client library
(src/renodeAPI/src/renodeInterface.cpp, src/renodeAPI/src/renodeMachine.cpp,
src/renodeAPI/src/renodeInternal.h, src/renodeAPI/include/defs.h).

Byte streams are modelled as `List Nat` (each element a byte value < 256 as
produced by the encoders).  Sockets are modelled as complete streams: a
`read_all(n)` succeeds iff at least `n` bytes remain, mirroring a blocking
read that hits EOF when the list ends.  C++ exceptions are modelled with
`Except`; functions that the source makes total (returning a value) stay
total here.
-/

namespace Renode

/-- Return-code values, from `return_code_t` in src/renodeAPI/include/defs.h
(enumerators without explicit values, so 0..6 in declaration order). -/
def COMMAND_FAILED : Nat := 0

/-- `FATAL_ERROR` from defs.h `return_code_t`. -/
def FATAL_ERROR : Nat := 1

/-- `INVALID_COMMAND` from defs.h `return_code_t`. -/
def INVALID_COMMAND : Nat := 2

/-- `SUCCESS_WITH_DATA` from defs.h `return_code_t`. -/
def SUCCESS_WITH_DATA : Nat := 3

/-- `SUCCESS_WITHOUT_DATA` from defs.h `return_code_t`. -/
def SUCCESS_WITHOUT_DATA : Nat := 4

/-- `OK_HANDSHAKE` from defs.h `return_code_t` (sixth enumerator, value 5);
the spec fixes the same numeric value as part of the wire contract. -/
def OK_HANDSHAKE : Nat := 5

/-- `ASYNC_EVENT` from defs.h `return_code_t`. -/
def ASYNC_EVENT : Nat := 6

/-- Command byte values, from `api_commands` in defs.h
(`RUN_FOR = 1`, then GET_TIME, GET_MACHINE, ADC, GPIO, SYSTEM_BUS). -/
def RUN_FOR : Nat := 1

/-- `GET_TIME` from defs.h `api_commands`. -/
def GET_TIME : Nat := 2

/-- `GET_MACHINE` from defs.h `api_commands`. -/
def GET_MACHINE : Nat := 3

/-- `ADC` from defs.h `api_commands`. -/
def ADC : Nat := 4

/-- `GPIO` from defs.h `api_commands` (named GPIO in the source). -/
def GPIO_CMD : Nat := 5

/-- `SYSTEM_BUS` from defs.h `api_commands`. -/
def SYSTEM_BUS : Nat := 6

/-- Modelled from the spec: §4.1 byte codec (the repository's little-endian
encode helpers `write_u16_le`/`write_u32_le`/`write_u64_le` are declared and
used by the sources under src/ but their definitions are not under src/).
`leBytes k n` is the `k` little-endian bytes of `n`. -/
def leBytes : Nat → Nat → List Nat
  | 0, _ => []
  | k + 1, n => n % 256 :: leBytes k (n / 256)

/-- 2-byte little-endian encoding (`write_u16_le`). -/
def le16 (n : Nat) : List Nat := leBytes 2 n

/-- 4-byte little-endian encoding (`write_u32_le`). -/
def le32 (n : Nat) : List Nat := leBytes 4 n

/-- 8-byte little-endian encoding (`write_u64_le`). -/
def le64 (n : Nat) : List Nat := leBytes 8 n

/-- Modelled from the spec: §4.1 little-endian decode (`read_u32_le` /
`read_u64_le`, declared and used under src/ but defined elsewhere).
Bytes are assumed < 256, as produced by the socket. -/
def leVal : List Nat → Nat
  | [] => 0
  | b :: bs => b + 256 * leVal bs

/-- Modelled from the spec: §4.1 two's-complement `i32` encode
(`write_i32_le`). -/
def i32le (v : Int) : List Nat := leBytes 4 (v % (2 ^ 32 : Int)).toNat

/-- Reading a 4-byte unsigned value back as a signed `int32_t`
(`static_cast<int32_t>` / `memcpy` into an `int32_t` in renodeMachine.cpp). -/
def toInt32 (n : Nat) : Int :=
  if n < 2 ^ 31 then (n : Int) else (n : Int) - 2 ^ 32

@[simp]
theorem length_leBytes (k n : Nat) : (leBytes k n).length = k := by
  induction k generalizing n with
  | zero => rfl
  | succ k ih => simp [leBytes, ih]

theorem leVal_leBytes {k n : Nat} (h : n < 256 ^ k) : leVal (leBytes k n) = n := by
  induction k generalizing n with
  | zero => simp [pow_zero, Nat.lt_one_iff] at h; simp [leBytes, leVal, h]
  | succ k ih =>
      have hdiv : n / 256 < 256 ^ k := by
        rw [Nat.div_lt_iff_lt_mul (by norm_num)]
        calc n < 256 ^ (k + 1) := h
        _ = 256 ^ k * 256 := by ring
      simp [leBytes, leVal, ih hdiv]
      omega

theorem take_le32_append (n : Nat) (l : List Nat) :
    (le32 n ++ l).take 4 = le32 n := by
  rw [List.take_append_of_le_length (by simp [le32])]
  simp [le32, List.take_of_length_le]

theorem drop_le32_append (n : Nat) (l : List Nat) :
    (le32 n ++ l).drop 4 = l := by
  have h : (le32 n).length = 4 := by simp [le32]
  rw [List.drop_append_of_le_length (by omega)]
  simp [h]

/-!
## Frame engine: `ExternalControlClient::Impl::recv_response`
(src/renodeAPI/src/renodeInterface.cpp, lines 402-501)

The receive loop reads one return-code byte, drains any `ASYNC_EVENT` frame
by handing `(ed, data)` to `EventCallbackRegistry::instance().invokeCallback`
(src/renodeAPI/src/renodeInternal.h, lines 39-47) and looping, and otherwise
parses the synchronous response frame.  The C++ `throw std::runtime_error`
cases become `Except.error`; the two `return {};` cases for a truncated
4-byte size field or truncated payload bytes (lines 471-483) return an
ordinary empty payload, exactly as in the source.
-/

/-- The distinct failure exits of recv_response and the send path
(each `throw std::runtime_error(...)` in the source). -/
inductive RecvErr where
  | outOfInput
  | readReturnCode
  | readEventCommand
  | readEventDescriptor
  | readEventSize
  | readEventData
  | readEchoedCommand
  | commandMismatch
  | socketClosed
deriving DecidableEq, Repr

/-- Normal result of recv_response: the returned payload bytes, the
`(ed, data)` pairs handed to `EventCallbackRegistry::invokeCallback` in
order, and the bytes left unconsumed on the socket. -/
structure RecvOk where
  payload : List Nat
  events : List (Nat × List Nat)
  rest : List Nat
deriving DecidableEq, Repr

/-- The return codes for which recv_response reads an echoed command byte
(renodeInterface.cpp line 457: COMMAND_FAILED, INVALID_COMMAND,
SUCCESS_WITH_DATA, SUCCESS_WITHOUT_DATA). -/
def readsEcho (rc : Nat) : Bool :=
  rc == COMMAND_FAILED || rc == INVALID_COMMAND ||
    rc == SUCCESS_WITH_DATA || rc == SUCCESS_WITHOUT_DATA

/-- The return codes whose switch arm reads a 4-byte size and payload
(renodeInterface.cpp lines 467-470: COMMAND_FAILED, FATAL_ERROR,
SUCCESS_WITH_DATA). -/
def carriesPayload (rc : Nat) : Bool :=
  rc == COMMAND_FAILED || rc == FATAL_ERROR || rc == SUCCESS_WITH_DATA

/-- The echoed-command validation at renodeInterface.cpp lines 493-497:
throw iff an echoed command was read (0xFF is the "not read" sentinel) and
it differs from the expected command.  Runs after the payload was read. -/
def checkEcho (expected : Nat) (echo : Option Nat) (payload rest : List Nat) :
    Except RecvErr RecvOk :=
  match echo with
  | some ec =>
      if ec ≠ 255 ∧ ec ≠ expected then .error .commandMismatch
      else .ok ⟨payload, [], rest⟩
  | none => .ok ⟨payload, [], rest⟩

/-- The switch on the return code (renodeInterface.cpp lines 467-491) for a
non-event frame: payload-carrying codes read a 4-byte size then the payload,
and on a short read print to stderr and return an empty payload (the
`return {};` at lines 474 and 481); other codes carry no payload. -/
def finishSync (expected : Nat) (echo : Option Nat) (rc : Nat) (r : List Nat) :
    Except RecvErr RecvOk :=
  if carriesPayload rc then
    if r.length < 4 then .ok ⟨[], [], []⟩
    else
      if (r.drop 4).length < leVal (r.take 4) then .ok ⟨[], [], []⟩
      else checkEcho expected echo ((r.drop 4).take (leVal (r.take 4)))
        ((r.drop 4).drop (leVal (r.take 4)))
  else checkEcho expected echo [] r

/-- Handling of a non-`ASYNC_EVENT` return code: read the echoed command
byte where applicable, then the switch, then the validation. -/
def handleSync (expected rc : Nat) (rest : List Nat) : Except RecvErr RecvOk :=
  if readsEcho rc then
    match rest with
    | [] => .error .readEchoedCommand
    | ec :: r => finishSync expected (some ec) rc r
  else finishSync expected none rc rest

/-- The recv_response receive loop over an incoming byte stream, with an
explicit fuel bound on the number of iterations (each iteration consumes at
least one byte, so `stream length + 1` fuel is always enough; `recvResponse`
below supplies it).  An `ASYNC_EVENT` frame is
`code(1) command(1) ed(4) size(4) data(size)`; its `(ed, data)` is handed to
the callback registry and the loop continues. -/
def recvLoop (expected : Nat) : Nat → List Nat → Except RecvErr RecvOk
  | 0, _ => .error .outOfInput
  | _ + 1, [] => .error .readReturnCode
  | fuel + 1, rc :: rest =>
    if rc = ASYNC_EVENT then
      match rest with
      | [] => .error .readEventCommand
      | _ec :: r1 =>
        if r1.length < 4 then .error .readEventDescriptor
        else if (r1.drop 4).length < 4 then .error .readEventSize
        else if ((r1.drop 4).drop 4).length < leVal ((r1.drop 4).take 4) then
          .error .readEventData
        else
          match recvLoop expected fuel
              (((r1.drop 4).drop 4).drop (leVal ((r1.drop 4).take 4))) with
          | .ok out =>
              .ok ⟨out.payload,
                (leVal (r1.take 4),
                  ((r1.drop 4).drop 4).take (leVal ((r1.drop 4).take 4)))
                  :: out.events,
                out.rest⟩
          | .error e => .error e
    else handleSync expected rc rest

/-- `ExternalControlClient::Impl::recv_response` on a complete incoming byte
stream. -/
def recvResponse (expected : Nat) (s : List Nat) : Except RecvErr RecvOk :=
  recvLoop expected (s.length + 1) s

/-!
## Wire frames

Encodings of the server-to-client frames, following the layout the receive
loop parses (and spec §3 "Frame").
-/

/-- A server-initiated asynchronous event frame: event command byte, event
descriptor, payload. -/
structure EventFrame where
  cmd : Nat
  ed : Nat
  data : List Nat
deriving DecidableEq, Repr

/-- Wire encoding of an event frame:
`ASYNC_EVENT(1) command(1) ed(4 LE) size(4 LE) data`. -/
def encodeEvent (e : EventFrame) : List Nat :=
  ASYNC_EVENT :: e.cmd :: (le32 e.ed ++ (le32 e.data.length ++ e.data))

/-- Well-formedness of an event frame: descriptor and size fit their 4-byte
fields. -/
def wfEvent (e : EventFrame) : Prop :=
  e.ed < 2 ^ 32 ∧ e.data.length < 2 ^ 32

instance (e : EventFrame) : Decidable (wfEvent e) := by
  unfold wfEvent; infer_instance

/-- A synchronous response frame that carries an echoed command byte (the
four return codes of renodeInterface.cpp line 457). -/
inductive RespFrame where
  | commandFailed (payload : List Nat)
  | invalidCommand
  | successWithData (payload : List Nat)
  | successWithoutData
deriving DecidableEq, Repr

/-- The return-code byte of a response frame. -/
def RespFrame.code : RespFrame → Nat
  | .commandFailed _ => COMMAND_FAILED
  | .invalidCommand => INVALID_COMMAND
  | .successWithData _ => SUCCESS_WITH_DATA
  | .successWithoutData => SUCCESS_WITHOUT_DATA

/-- The payload bytes a response frame carries (empty when the shape has no
payload section). -/
def RespFrame.payloadBytes : RespFrame → List Nat
  | .commandFailed p => p
  | .successWithData p => p
  | _ => []

/-- Wire encoding of a response frame with echoed command byte `echo`:
`code(1) command(1) [size(4 LE) payload]`. -/
def encodeResp (echo : Nat) (r : RespFrame) : List Nat :=
  match r with
  | .commandFailed p => COMMAND_FAILED :: echo :: (le32 p.length ++ p)
  | .invalidCommand => [INVALID_COMMAND, echo]
  | .successWithData p => SUCCESS_WITH_DATA :: echo :: (le32 p.length ++ p)
  | .successWithoutData => [SUCCESS_WITHOUT_DATA, echo]

/-- Well-formedness of a response frame: the payload fits its 4-byte size
field. -/
def wfResp (r : RespFrame) : Prop := r.payloadBytes.length < 2 ^ 32

instance (r : RespFrame) : Decidable (wfResp r) := by
  unfold wfResp; infer_instance

theorem leVal_le32 {n : Nat} (h : n < 2 ^ 32) : leVal (le32 n) = n :=
  leVal_leBytes (by norm_num at h ⊢; omega)

theorem finishSync_payload (expected : Nat) (echo : Option Nat) (rc : Nat)
    (hrc : carriesPayload rc = true) (p rest : List Nat)
    (hp : p.length < 2 ^ 32) :
    finishSync expected echo rc (le32 p.length ++ (p ++ rest)) =
      checkEcho expected echo p rest := by
  have h4 : ¬ (le32 p.length ++ (p ++ rest)).length < 4 := by
    simp [le32]
  have htake : (le32 p.length ++ (p ++ rest)).take 4 = le32 p.length :=
    take_le32_append _ _
  have hdrop : (le32 p.length ++ (p ++ rest)).drop 4 = p ++ rest :=
    drop_le32_append _ _
  have hsz : leVal ((le32 p.length ++ (p ++ rest)).take 4) = p.length := by
    rw [htake, leVal_le32 hp]
  have hlen : ¬ (p ++ rest).length < p.length := by simp
  simp only [finishSync, hrc, if_true, h4, if_false, hdrop, hsz, hlen,
    List.take_left, List.drop_left]

/-- On a well-formed response frame, the receive loop reads the frame,
performs the echoed-command validation, and leaves trailing bytes on the
socket. -/
theorem recvLoop_resp (cmd ec : Nat) (r : RespFrame) (rest : List Nat)
    (f : Nat) (hr : wfResp r) :
    recvLoop cmd (f + 1) (encodeResp ec r ++ rest) =
      if ec ≠ 255 ∧ ec ≠ cmd then .error .commandMismatch
      else .ok ⟨r.payloadBytes, [], rest⟩ := by
  cases r with
  | commandFailed p =>
      have : encodeResp ec (.commandFailed p) ++ rest =
          COMMAND_FAILED :: ec :: (le32 p.length ++ (p ++ rest)) := by
        simp [encodeResp]
      rw [this]
      simp only [recvLoop, COMMAND_FAILED, ASYNC_EVENT]
      norm_num [handleSync, readsEcho, COMMAND_FAILED]
      rw [finishSync_payload _ _ _ (by rfl) _ _ (by exact hr)]
      simp [checkEcho, RespFrame.payloadBytes]
  | invalidCommand =>
      have : encodeResp ec .invalidCommand ++ rest =
          INVALID_COMMAND :: ec :: rest := by simp [encodeResp]
      rw [this]
      simp only [recvLoop, INVALID_COMMAND, ASYNC_EVENT]
      norm_num [handleSync, readsEcho, INVALID_COMMAND]
      rw [show finishSync cmd (some ec) 2 rest = checkEcho cmd (some ec) [] rest
        from by simp [finishSync, carriesPayload, COMMAND_FAILED, FATAL_ERROR,
          SUCCESS_WITH_DATA]]
      simp [checkEcho, RespFrame.payloadBytes]
  | successWithData p =>
      have : encodeResp ec (.successWithData p) ++ rest =
          SUCCESS_WITH_DATA :: ec :: (le32 p.length ++ (p ++ rest)) := by
        simp [encodeResp]
      rw [this]
      simp only [recvLoop, SUCCESS_WITH_DATA, ASYNC_EVENT]
      norm_num [handleSync, readsEcho, SUCCESS_WITH_DATA]
      rw [finishSync_payload _ _ _ (by rfl) _ _ (by exact hr)]
      simp [checkEcho, RespFrame.payloadBytes]
  | successWithoutData =>
      have : encodeResp ec .successWithoutData ++ rest =
          SUCCESS_WITHOUT_DATA :: ec :: rest := by simp [encodeResp]
      rw [this]
      simp only [recvLoop, SUCCESS_WITHOUT_DATA, ASYNC_EVENT]
      norm_num [handleSync, readsEcho, SUCCESS_WITHOUT_DATA]
      rw [show finishSync cmd (some ec) 4 rest = checkEcho cmd (some ec) [] rest
        from by simp [finishSync, carriesPayload, COMMAND_FAILED, FATAL_ERROR,
          SUCCESS_WITH_DATA]]
      simp [checkEcho, RespFrame.payloadBytes]

/-- One iteration of the receive loop on a well-formed event frame: the
`(ed, data)` pair is handed to the registry and the loop continues on the
remaining bytes. -/
theorem recvLoop_event (cmd : Nat) (e : EventFrame) (s : List Nat) (f : Nat)
    (he : wfEvent e) :
    recvLoop cmd (f + 1) (encodeEvent e ++ s) =
      match recvLoop cmd f s with
      | .ok out => .ok ⟨out.payload, (e.ed, e.data) :: out.events, out.rest⟩
      | .error err => .error err := by
  have henc : encodeEvent e ++ s =
      ASYNC_EVENT :: e.cmd :: (le32 e.ed ++ (le32 e.data.length ++ (e.data ++ s))) := by
    simp [encodeEvent]
  rw [henc]
  have h1 : ¬ (le32 e.ed ++ (le32 e.data.length ++ (e.data ++ s))).length < 4 := by
    simp [le32]
  have hdrop1 : (le32 e.ed ++ (le32 e.data.length ++ (e.data ++ s))).drop 4 =
      le32 e.data.length ++ (e.data ++ s) := drop_le32_append _ _
  have htake1 : (le32 e.ed ++ (le32 e.data.length ++ (e.data ++ s))).take 4 =
      le32 e.ed := take_le32_append _ _
  have h2 : ¬ (le32 e.data.length ++ (e.data ++ s)).length < 4 := by
    simp [le32]
  have htake2 : (le32 e.data.length ++ (e.data ++ s)).take 4 =
      le32 e.data.length := take_le32_append _ _
  have hdrop2 : (le32 e.data.length ++ (e.data ++ s)).drop 4 = e.data ++ s :=
    drop_le32_append _ _
  have hsz : leVal ((le32 e.data.length ++ (e.data ++ s)).take 4) =
      e.data.length := by rw [htake2, leVal_le32 he.2]
  have h3 : ¬ (e.data ++ s).length < e.data.length := by simp
  simp only [recvLoop, ASYNC_EVENT, if_pos rfl, reduceIte, h1, hdrop1, htake1,
    hsz, h2, hdrop2, if_false, h3, List.take_left, List.drop_left,
    leVal_le32 he.1]

theorem length_encodeEvent (e : EventFrame) :
    (encodeEvent e).length = 10 + e.data.length := by
  simp [encodeEvent, le32]
  omega

theorem recvLoop_exchange (cmd : Nat) (evs : List EventFrame) (r : RespFrame)
    (rest : List Nat) (hev : ∀ e ∈ evs, wfEvent e) (hr : wfResp r) :
    ∀ f : Nat,
      ((evs.map encodeEvent).flatten ++ (encodeResp cmd r ++ rest)).length < f →
      recvLoop cmd f ((evs.map encodeEvent).flatten ++ (encodeResp cmd r ++ rest)) =
        .ok ⟨r.payloadBytes, evs.map (fun e => (e.ed, e.data)), rest⟩ := by
  induction evs with
  | nil =>
      intro f hf
      obtain ⟨f', rfl⟩ : ∃ f', f = f' + 1 := ⟨f - 1, by omega⟩
      simp only [List.map_nil, List.flatten_nil, List.nil_append]
      rw [recvLoop_resp cmd cmd r rest f' hr]
      simp
  | cons e evs ih =>
      intro f hf
      obtain ⟨f', rfl⟩ : ∃ f', f = f' + 1 := ⟨f - 1, by omega⟩
      have hassoc :
          (((e :: evs).map encodeEvent).flatten ++ (encodeResp cmd r ++ rest)) =
          encodeEvent e ++
            ((evs.map encodeEvent).flatten ++ (encodeResp cmd r ++ rest)) := by
        simp [List.append_assoc]
      rw [hassoc]
      rw [recvLoop_event cmd e _ f' (hev e (by simp))]
      have hlen :
          ((evs.map encodeEvent).flatten ++ (encodeResp cmd r ++ rest)).length < f' := by
        rw [hassoc] at hf
        have h10 := length_encodeEvent e
        simp only [List.length_append] at hf ⊢
        omega
      rw [ih (fun e' he' => hev e' (by simp [he'])) f' hlen]
      simp

/-- C1 (functional_correctness): for every incoming byte stream made of `N`
well-formed `ASYNC_EVENT` frames all ahead of one well-formed response frame
whose echoed command byte equals the sent command (trailing bytes
arbitrary), recv_response returns exactly that response frame's payload
bytes, hands the `N` events to `EventCallbackRegistry::invokeCallback` in
stream order before returning, and consumes nothing past the response
frame. -/
theorem exchange_interleaved_events (cmd : Nat) (evs : List EventFrame)
    (r : RespFrame) (rest : List Nat)
    (hev : ∀ e ∈ evs, wfEvent e) (hr : wfResp r) :
    recvResponse cmd ((evs.map encodeEvent).flatten ++ (encodeResp cmd r ++ rest)) =
      .ok ⟨r.payloadBytes, evs.map (fun e => (e.ed, e.data)), rest⟩ := by
  unfold recvResponse
  exact recvLoop_exchange cmd evs r rest hev hr _ (by omega)

/-- Concrete instance of `exchange_interleaved_events`: two event frames
(descriptors 42 and 43) ahead of a `SUCCESS_WITH_DATA` response echoing
command 1, with one trailing byte. -/
theorem exchange_interleaved_events_witness :
    recvResponse 1
      ((([⟨5, 42, [7]⟩, ⟨5, 43, []⟩] : List EventFrame).map encodeEvent).flatten ++
        (encodeResp 1 (.successWithData [1, 2]) ++ [9])) =
      .ok ⟨[1, 2], [(42, [7]), (43, [])], [9]⟩ :=
  exchange_interleaved_events 1 [⟨5, 42, [7]⟩, ⟨5, 43, []⟩]
    (.successWithData [1, 2]) [9] (by decide) (by decide)

/-!
## Client session state (C2)

`recv_response` throws `std::runtime_error` on an echoed-command mismatch
(renodeInterface.cpp lines 493-497) but nothing on that path modifies
`sock_fd` or `connected`: the only code that closes the socket is
`ExternalControlClient::disconnect` (lines 293-301).  `send_command` /
`send_bytes` (lines 373-400) throw when `sock_fd < 0` and otherwise write
the 7-byte header and the payload without touching the state.
-/

/-- The part of `ExternalControlClient::Impl` the exchange path reads or
writes: whether `sock_fd >= 0` and the `connected` flag. -/
structure ClientState where
  sockOpen : Bool
  connected : Bool
deriving DecidableEq, Repr

/-- `ExternalControlClient::disconnect` (renodeInterface.cpp lines
293-301): closes the socket and clears `connected`. -/
def disconnect (_ : ClientState) : ClientState := ⟨false, false⟩

/-- The request bytes `send_command` writes (renodeInterface.cpp lines
373-388): magic bytes 82 and 69 for R and E, the command byte, the 4-byte
little-endian payload size, then the payload. -/
def sendHeader (cmd : Nat) (payload : List Nat) : List Nat :=
  82 :: 69 :: cmd :: (le32 payload.length ++ payload)

/-- Everything observable about one `send_command` call: the bytes written
to the socket, the recv_response outcome, and the client state afterwards. -/
structure ExchangeResult where
  sent : List Nat
  outcome : Except RecvErr RecvOk
  finalState : ClientState
deriving Repr

/-- `ExternalControlClient::Impl::send_command` over an incoming byte
stream: refuses with an exception when the socket is closed, otherwise
writes header plus payload and runs recv_response.  No path in the source
modifies `sock_fd` or `connected`, so the final state is the initial one. -/
def send_command (st : ClientState) (cmd : Nat) (payload : List Nat)
    (stream : List Nat) : ExchangeResult :=
  if st.sockOpen = false then ⟨[], .error .socketClosed, st⟩
  else ⟨sendHeader cmd payload, recvResponse cmd stream, st⟩

/-- C2 counterexample: command 1 is sent on an open connected socket and
the response (`SUCCESS_WITHOUT_DATA`) echoes command 2.  The exchange does
fail with the command-mismatch error, but the socket is NOT closed, and a
subsequent exchange on the same client writes its request bytes to the
socket instead of failing with a not-connected error. -/
theorem mismatch_does_not_close_socket_cex :
    (send_command ⟨true, true⟩ 1 [] [4, 2]).outcome =
      .error .commandMismatch ∧
    (send_command ⟨true, true⟩ 1 [] [4, 2]).finalState.sockOpen = true ∧
    (send_command ⟨true, true⟩ 1 [] [4, 2]).finalState.connected = true ∧
    (send_command
        (send_command ⟨true, true⟩ 1 [] [4, 2]).finalState 1 [] [4, 1]).sent
      = sendHeader 1 [] := ⟨rfl, rfl, rfl, rfl⟩

/-- C2 as amended: on an echoed-command mismatch (any well-formed response
frame echoing `ec` with `ec` neither 0xFF nor the sent command), the
exchange surfaces the command-mismatch exception, but the socket stays
open, the client state is unchanged, and a subsequent exchange still
performs socket I/O (it writes its full request). -/
theorem mismatch_error_socket_unchanged (st : ClientState) (cmd ec : Nat)
    (p rest p2 s2 : List Nat) (r : RespFrame)
    (hopen : st.sockOpen = true) (hwf : wfResp r)
    (hec : ec ≠ 255 ∧ ec ≠ cmd) :
    (send_command st cmd p (encodeResp ec r ++ rest)).outcome =
      .error .commandMismatch ∧
    (send_command st cmd p (encodeResp ec r ++ rest)).finalState = st ∧
    (send_command
        (send_command st cmd p (encodeResp ec r ++ rest)).finalState
        cmd p2 s2).sent = sendHeader cmd p2 := by
  have hrecv : recvResponse cmd (encodeResp ec r ++ rest) =
      .error .commandMismatch := by
    unfold recvResponse
    rw [recvLoop_resp cmd ec r rest _ hwf]
    simp [hec.1, hec.2]
  refine ⟨?_, ?_, ?_⟩ <;> simp [send_command, hopen, hrecv]

/-- Concrete instance of `mismatch_error_socket_unchanged`. -/
theorem mismatch_error_socket_unchanged_witness :
    (send_command ⟨true, true⟩ 1 [3] (encodeResp 2 .successWithoutData ++ [8])).outcome =
      .error .commandMismatch ∧
    (send_command ⟨true, true⟩ 1 [3] (encodeResp 2 .successWithoutData ++ [8])).finalState =
      (⟨true, true⟩ : ClientState) ∧
    (send_command
        (send_command ⟨true, true⟩ 1 [3] (encodeResp 2 .successWithoutData ++ [8])).finalState
        1 [7] [6]).sent = sendHeader 1 [7] :=
  mismatch_error_socket_unchanged ⟨true, true⟩ 1 2 [3] [8] [7] [6]
    .successWithoutData rfl (by decide) (by decide)

/-- C3 counterexample: command 1, response `SUCCESS_WITH_DATA` echoing
command 1.  First stream: the 4-byte size field is cut short after 2
bytes.  Second stream: the size field declares 5 payload bytes but only 2
follow before the stream ends.  In both cases recv_response reports
success with an empty payload instead of a connection-lost error. -/
theorem truncated_payload_reports_success_cex :
    recvResponse 1 [3, 1, 2, 0] = .ok ⟨[], [], []⟩ ∧
    recvResponse 1 [3, 1, 5, 0, 0, 0, 65, 66] = .ok ⟨[], [], []⟩ := ⟨rfl, rfl⟩

/-- C3 as amended: when a `COMMAND_FAILED`, `FATAL_ERROR` or
`SUCCESS_WITH_DATA` response announces a payload but the 4-byte size field
or the declared payload bytes cannot be read in full before the stream
ends, recv_response logs to stderr and returns an ordinary empty payload
(indistinguishable from success with no data) rather than an error; the
echoed-command validation is bypassed as well. -/
theorem truncated_payload_returns_empty_ok :
    (∀ cmd ec tail : _, tail.length < 4 →
      recvResponse cmd (COMMAND_FAILED :: ec :: tail) = .ok ⟨[], [], []⟩) ∧
    (∀ cmd ec tail : _, tail.length < 4 →
      recvResponse cmd (SUCCESS_WITH_DATA :: ec :: tail) = .ok ⟨[], [], []⟩) ∧
    (∀ cmd tail : _, tail.length < 4 →
      recvResponse cmd (FATAL_ERROR :: tail) = .ok ⟨[], [], []⟩) ∧
    (∀ cmd ec sz tail : _, sz < 2 ^ 32 → tail.length < sz →
      recvResponse cmd (SUCCESS_WITH_DATA :: ec :: (le32 sz ++ tail)) =
        .ok ⟨[], [], []⟩) := by
  refine ⟨?_, ?_, ?_, ?_⟩
  · intro cmd ec tail htail
    have h : recvResponse cmd (COMMAND_FAILED :: ec :: tail) =
        recvLoop cmd (tail.length + 2 + 1) (COMMAND_FAILED :: ec :: tail) := rfl
    rw [h]
    simp only [recvLoop, COMMAND_FAILED, ASYNC_EVENT]
    norm_num [handleSync, readsEcho, COMMAND_FAILED, INVALID_COMMAND,
      SUCCESS_WITH_DATA, SUCCESS_WITHOUT_DATA]
    simp [finishSync, carriesPayload, COMMAND_FAILED, htail]
  · intro cmd ec tail htail
    have h : recvResponse cmd (SUCCESS_WITH_DATA :: ec :: tail) =
        recvLoop cmd (tail.length + 2 + 1) (SUCCESS_WITH_DATA :: ec :: tail) := rfl
    rw [h]
    simp only [recvLoop, SUCCESS_WITH_DATA, ASYNC_EVENT]
    norm_num [handleSync, readsEcho, COMMAND_FAILED, INVALID_COMMAND,
      SUCCESS_WITH_DATA, SUCCESS_WITHOUT_DATA]
    simp [finishSync, carriesPayload, SUCCESS_WITH_DATA, htail]
  · intro cmd tail htail
    have h : recvResponse cmd (FATAL_ERROR :: tail) =
        recvLoop cmd (tail.length + 1 + 1) (FATAL_ERROR :: tail) := rfl
    rw [h]
    simp only [recvLoop, FATAL_ERROR, ASYNC_EVENT]
    norm_num [handleSync, readsEcho, COMMAND_FAILED, INVALID_COMMAND,
      SUCCESS_WITH_DATA, SUCCESS_WITHOUT_DATA]
    simp [finishSync, carriesPayload, FATAL_ERROR, htail]
  · intro cmd ec sz tail hsz htail
    have h : recvResponse cmd (SUCCESS_WITH_DATA :: ec :: (le32 sz ++ tail)) =
        recvLoop cmd ((le32 sz ++ tail).length + 2 + 1)
          (SUCCESS_WITH_DATA :: ec :: (le32 sz ++ tail)) := rfl
    rw [h]
    simp only [recvLoop, SUCCESS_WITH_DATA, ASYNC_EVENT]
    norm_num [handleSync, readsEcho, COMMAND_FAILED, INVALID_COMMAND,
      SUCCESS_WITH_DATA, SUCCESS_WITHOUT_DATA]
    have h4 : ¬ (le32 sz ++ tail).length < 4 := by simp [le32]
    have hsz2 : leVal ((le32 sz ++ tail).take 4) = sz := by
      rw [take_le32_append, leVal_le32 hsz]
    have hdrop : (le32 sz ++ tail).drop 4 = tail := drop_le32_append _ _
    simp [finishSync, carriesPayload, SUCCESS_WITH_DATA, h4, hsz2, hdrop, htail]

/-- Concrete instance of `truncated_payload_returns_empty_ok`. -/
theorem truncated_payload_returns_empty_ok_witness :
    recvResponse 4 [0, 4, 7] = .ok ⟨[], [], []⟩ :=
  truncated_payload_returns_empty_ok.1 4 4 [7] (by decide)

/-- C4 counterexample: command 2 is sent; the server answers
`COMMAND_FAILED` (echo 2) with a 1-byte payload.  recv_response returns
the payload as a plain success value (no error of any kind), and the
result is byte-for-byte identical to the one for `SUCCESS_WITH_DATA` with
the same payload, so the caller cannot distinguish the failure from a
successful exchange. -/
theorem failure_code_indistinguishable_cex :
    recvResponse 2 [0, 2, 1, 0, 0, 0, 65] = .ok ⟨[65], [], []⟩ ∧
    recvResponse 2 [0, 2, 1, 0, 0, 0, 65] =
      recvResponse 2 [3, 2, 1, 0, 0, 0, 65] := ⟨rfl, rfl⟩

/-- C4 as amended: for `COMMAND_FAILED` and `FATAL_ERROR` responses
recv_response returns the payload bytes as an ordinary result, and for
`INVALID_COMMAND` an empty payload; no `Error` value is synthesised, and a
`COMMAND_FAILED` response is indistinguishable from a `SUCCESS_WITH_DATA`
response with the same payload. -/
theorem failure_codes_return_payload_no_error (cmd : Nat) (p rest : List Nat)
    (hp : p.length < 2 ^ 32) :
    recvResponse cmd (encodeResp cmd (.commandFailed p) ++ rest) =
      .ok ⟨p, [], rest⟩ ∧
    recvResponse cmd (encodeResp cmd (.commandFailed p) ++ rest) =
      recvResponse cmd (encodeResp cmd (.successWithData p) ++ rest) ∧
    recvResponse cmd (FATAL_ERROR :: (le32 p.length ++ (p ++ rest))) =
      .ok ⟨p, [], rest⟩ ∧
    recvResponse cmd (encodeResp cmd .invalidCommand ++ rest) =
      .ok ⟨[], [], rest⟩ := by
  have h1 : recvResponse cmd (encodeResp cmd (.commandFailed p) ++ rest) =
      .ok ⟨p, [], rest⟩ := by
    unfold recvResponse
    rw [recvLoop_resp cmd cmd (.commandFailed p) rest _ hp]
    simp [RespFrame.payloadBytes]
  have h2 : recvResponse cmd (encodeResp cmd (.successWithData p) ++ rest) =
      .ok ⟨p, [], rest⟩ := by
    unfold recvResponse
    rw [recvLoop_resp cmd cmd (.successWithData p) rest _ hp]
    simp [RespFrame.payloadBytes]
  have h3 : recvResponse cmd (FATAL_ERROR :: (le32 p.length ++ (p ++ rest))) =
      .ok ⟨p, [], rest⟩ := by
    have h : recvResponse cmd (FATAL_ERROR :: (le32 p.length ++ (p ++ rest))) =
        recvLoop cmd ((le32 p.length ++ (p ++ rest)).length + 1 + 1)
          (FATAL_ERROR :: (le32 p.length ++ (p ++ rest))) := rfl
    rw [h]
    simp only [recvLoop, FATAL_ERROR, ASYNC_EVENT]
    norm_num [handleSync, readsEcho, COMMAND_FAILED, INVALID_COMMAND,
      SUCCESS_WITH_DATA, SUCCESS_WITHOUT_DATA]
    rw [finishSync_payload cmd none 1 (by rfl) p rest hp]
    simp [checkEcho]
  have h4 : recvResponse cmd (encodeResp cmd .invalidCommand ++ rest) =
      .ok ⟨[], [], rest⟩ := by
    unfold recvResponse
    rw [recvLoop_resp cmd cmd .invalidCommand rest _ (by simp [wfResp, RespFrame.payloadBytes])]
    simp [RespFrame.payloadBytes]
  exact ⟨h1, h1.trans h2.symm, h3, h4⟩

/-- Concrete instance of `failure_codes_return_payload_no_error`. -/
theorem failure_codes_return_payload_no_error_witness :
    recvResponse 3 (encodeResp 3 (.commandFailed [66]) ++ []) =
      .ok ⟨[66], [], []⟩ :=
  (failure_codes_return_payload_no_error 3 [66] [] (by decide)).1

/-!
## Handshake: `ExternalControlClient::performHandshake`
(renodeInterface.cpp lines 324-355)
-/

/-- Modelled from the spec: the handshake command/version table
`command_versions` is iterated by performHandshake under src/ but defined
elsewhere in the repository.  Spec §3: version byte 0 for RUN_FOR,
GET_TIME, GET_MACHINE, ADC, SYSTEM_BUS and version byte 1 for GPIO, in the
order given by spec §8 scenario 1. -/
def command_versions : List (Nat × Nat) :=
  [(RUN_FOR, 0), (GET_TIME, 0), (GET_MACHINE, 0), (ADC, 0), (GPIO_CMD, 1),
    (SYSTEM_BUS, 0)]

/-- The raw bytes performHandshake writes: the 2-byte little-endian pair
count followed by the (command, version) pairs — no R,E magic and no
4-byte length field. -/
def handshakeSent : List Nat :=
  le16 command_versions.length ++
    (command_versions.map (fun q => [q.1, q.2])).flatten

/-- `performHandshake` over the incoming byte stream: refuse a table
larger than UINT16_MAX, write the raw handshake bytes, read one byte and
succeed iff it equals OK_HANDSHAKE (any other value, or a failed read,
fails).  Result: (bytes written, success flag). -/
def performHandshake (stream : List Nat) : List Nat × Bool :=
  if 65535 < command_versions.length then ([], false)
  else
    match stream with
    | [] => (handshakeSent, false)
    | b :: _ => (handshakeSent, b == OK_HANDSHAKE)

/-- C5 (functional_correctness): performHandshake sends exactly the
2-byte little-endian count followed by the (command, version) pairs —
the concrete bytes show there is no R,E header and no 4-byte length —
then reads a single byte and returns true iff that byte equals
OK_HANDSHAKE, whose numeric value is 5; a stream that ends before the
reply byte fails. -/
theorem performHandshake_spec :
    (∀ s : List Nat, (performHandshake s).1 =
      [6, 0, 1, 0, 2, 0, 3, 0, 4, 0, 5, 1, 6, 0]) ∧
    (∀ b : Nat, ∀ rest : List Nat,
      (performHandshake (b :: rest)).2 = (b == OK_HANDSHAKE)) ∧
    (performHandshake []).2 = false ∧
    OK_HANDSHAKE = 5 := by
  refine ⟨?_, ?_, rfl, rfl⟩
  · intro s
    cases s <;> rfl
  · intro b rest
    rfl

/-!
## Peripheral registration: `AMachine::getGpio`
(renodeMachine.cpp lines 340-394)
-/

/-- Outcome of a registration call: the command and payload transmitted,
the created instance id (none when no peripheral is returned), and the
error code (0 = success). -/
structure RegResult where
  cmd : Nat
  payload : List Nat
  instanceId : Option Int
  err : Nat
deriving Repr, DecidableEq

/-- `AMachine::getGpio` for a machine with descriptor `d` and peripheral
path `path` (as bytes): builds the registration payload — i32 -1, the i32
machine descriptor (both written byte-for-byte little-endian via
reinterpret_cast in the source), then write_string (u32 length + bytes) —
exchanges it under command GPIO, and accepts only a 4-byte response read
back as an int32 instance id; a negative id or a wrong-size response
yields an error and no peripheral.  `resp` is the exchange outcome. -/
def getGpio (d : Int) (path : List Nat) (resp : Except RecvErr (List Nat)) :
    RegResult :=
  match resp with
  | .error _ =>
      ⟨GPIO_CMD, i32le (-1) ++ (i32le d ++ (le32 path.length ++ path)), none, 4⟩
  | .ok bytes =>
      if bytes.length ≠ 4 then
        ⟨GPIO_CMD, i32le (-1) ++ (i32le d ++ (le32 path.length ++ path)), none, 2⟩
      else if toInt32 (leVal bytes) < 0 then
        ⟨GPIO_CMD, i32le (-1) ++ (i32le d ++ (le32 path.length ++ path)), none, 3⟩
      else
        ⟨GPIO_CMD, i32le (-1) ++ (i32le d ++ (le32 path.length ++ path)),
          some (toInt32 (leVal bytes)), 0⟩

theorem toInt32_leVal_i32le (v : Int) (h1 : -(2 ^ 31) ≤ v) (h2 : v < 2 ^ 31) :
    toInt32 (leVal (i32le v)) = v := by
  unfold i32le
  have hm : (0 : Int) ≤ v % (2 ^ 32 : Int) := Int.emod_nonneg v (by norm_num)
  have hlt : v % (2 ^ 32 : Int) < (2 ^ 32 : Int) :=
    Int.emod_lt_of_pos v (by norm_num)
  have hn : (v % (2 ^ 32 : Int)).toNat < 256 ^ 4 := by
    norm_num
    omega
  rw [leVal_leBytes hn]
  have hv : (((v % (2 ^ 32 : Int)).toNat : Int)) = v % (2 ^ 32 : Int) :=
    Int.toNat_of_nonneg hm
  unfold toInt32
  split <;> omega

/-- C6 (functional_correctness): getGpio transmits exactly
`[i32 -1][i32 d][u32 len(path)][path bytes]` under command GPIO (the i32 -1
being bytes 255,255,255,255); a 4-byte response encoding a non-negative
int32 `v` sets the peripheral's instanceId to `v`; a 4-byte response
encoding a negative value, or a response that is not 4 bytes, returns no
peripheral and a nonzero registration error. -/
theorem getGpio_spec (d : Int) (path : List Nat)
    (resp : Except RecvErr (List Nat)) :
    (getGpio d path resp).cmd = GPIO_CMD ∧
    (getGpio d path resp).payload =
      [255, 255, 255, 255] ++ (i32le d ++ (le32 path.length ++ path)) ∧
    (∀ v : Int, -(2 ^ 31) ≤ v → v < 2 ^ 31 → 0 ≤ v →
      (getGpio d path (.ok (i32le v))).instanceId = some v ∧
      (getGpio d path (.ok (i32le v))).err = 0) ∧
    (∀ v : Int, -(2 ^ 31) ≤ v → v < 0 →
      (getGpio d path (.ok (i32le v))).instanceId = none ∧
      (getGpio d path (.ok (i32le v))).err = 3) ∧
    (∀ bytes : List Nat, bytes.length ≠ 4 →
      (getGpio d path (.ok bytes)).instanceId = none ∧
      (getGpio d path (.ok bytes)).err = 2) := by
  have hlen : ∀ v : Int, (i32le v).length = 4 := by
    intro v; simp [i32le]
  have h255 : i32le (-1) = [255, 255, 255, 255] := by decide
  have hfields : ∀ r, (getGpio d path r).cmd = GPIO_CMD ∧
      (getGpio d path r).payload =
        i32le (-1) ++ (i32le d ++ (le32 path.length ++ path)) := by
    intro r
    cases r with
    | error e => exact ⟨rfl, rfl⟩
    | ok bytes =>
        by_cases hb : bytes.length ≠ 4
        · simp [getGpio, hb]
        · by_cases hv : toInt32 (leVal bytes) < 0
          · simp [getGpio, hb, hv]
          · simp [getGpio, hb, hv]
  refine ⟨(hfields resp).1, by rw [(hfields resp).2, h255], ?_, ?_, ?_⟩
  · intro v hv1 hv2 hv3
    have hr := toInt32_leVal_i32le v hv1 hv2
    have hnotneg : ¬ toInt32 (leVal (i32le v)) < 0 := by omega
    have hv : ¬ v < 0 := by omega
    simp [getGpio, hlen v, hr, hnotneg, hv]
  · intro v hv1 hv2
    have hr := toInt32_leVal_i32le v hv1 (by omega)
    have hneg : toInt32 (leVal (i32le v)) < 0 := by omega
    simp [getGpio, hlen v, hneg, hr, hv2]
  · intro bytes hb
    simp [getGpio, hb]

/-- Concrete instance of `getGpio_spec` at descriptor 7, path "g", with a
response encoding instance id 9. -/
theorem getGpio_spec_witness :
    (getGpio 7 [103] (.ok (i32le 9))).cmd = GPIO_CMD ∧
    (getGpio 7 [103] (.ok (i32le 9))).payload =
      [255, 255, 255, 255] ++ (i32le 7 ++ (le32 1 ++ [103])) ∧
    (getGpio 7 [103] (.ok (i32le 9))).instanceId = some 9 ∧
    (getGpio 7 [103] (.ok (i32le 9))).err = 0 := by
  have h := getGpio_spec 7 [103] (.ok (i32le 9))
  have h3 := h.2.2.1 9 (by decide) (by decide) (by decide)
  exact ⟨h.1, h.2.1, h3.1, h3.2⟩

/-!
## Peripheral sub-commands (renodeMachine.cpp)

Each operation guards on the server-assigned `instanceId` before building
any payload: a negative id returns a "not registered" error (code 2 in
every class) without writing to the socket.  `resp` is the exchange
outcome for the registered case.
-/

/-- Outcome of one peripheral sub-command: error code (0 = success), the
(command, payload) written to the socket (none when nothing was sent),
and the decoded value where the operation returns one. -/
structure OpResult where
  err : Nat
  sent : Option (Nat × List Nat)
  val : Option Int
deriving Repr, DecidableEq

/-- The local state of a `Gpio::Impl` relevant here (renodeMachine.cpp
lines 32-41): the instance id, the next local callback handle, and the
handles present in the `callbacks` map in key order. -/
structure GpioLocal where
  instanceId : Int
  nextCbHandle : Nat
  callbacks : List Nat
deriving Repr, DecidableEq

/-- `Gpio::getState` (renodeMachine.cpp lines 636-678): payload is
i32 id, subcommand 0, i32 pin; the response must be one byte ≤ 2. -/
def gpio_getState (iid : Int) (pin : Int) (resp : Except RecvErr (List Nat)) :
    OpResult :=
  if iid < 0 then ⟨2, none, none⟩
  else
    match resp with
    | .error _ => ⟨5, some (GPIO_CMD, i32le iid ++ ([0] ++ i32le pin)), none⟩
    | .ok bytes =>
        if bytes.length ≠ 1 then
          ⟨3, some (GPIO_CMD, i32le iid ++ ([0] ++ i32le pin)), none⟩
        else if 2 < bytes.headD 0 then
          ⟨4, some (GPIO_CMD, i32le iid ++ ([0] ++ i32le pin)), none⟩
        else
          ⟨0, some (GPIO_CMD, i32le iid ++ ([0] ++ i32le pin)),
            some (bytes.headD 0 : Int)⟩

/-- `Gpio::setState` (renodeMachine.cpp lines 680-720): payload is i32 id,
subcommand 1, i32 pin, state byte; after a successful exchange every
callback in the local map is invoked with (pin, state); on failure none
is.  The second component is the list of callback invocations, as
(handle, pin, state) triples in map order. -/
def gpio_setState (g : GpioLocal) (pin : Int) (state : Nat)
    (resp : Except RecvErr (List Nat)) : OpResult × List (Nat × Int × Nat) :=
  if g.instanceId < 0 then (⟨2, none, none⟩, [])
  else
    match resp with
    | .error _ =>
        (⟨5, some (GPIO_CMD, i32le g.instanceId ++ ([1] ++ (i32le pin ++ [state]))),
          none⟩, [])
    | .ok _ =>
        (⟨0, some (GPIO_CMD, i32le g.instanceId ++ ([1] ++ (i32le pin ++ [state]))),
          none⟩, g.callbacks.map (fun hd => (hd, pin, state)))

/-- `Adc::getChannelCount` (renodeMachine.cpp lines 533-559): payload is
i32 id, subcommand 0; the response must be 4 bytes, read as an int. -/
def adc_getChannelCount (iid : Int) (resp : Except RecvErr (List Nat)) :
    OpResult :=
  if iid < 0 then ⟨2, none, none⟩
  else
    match resp with
    | .error _ => ⟨5, some (ADC, i32le iid ++ [0]), none⟩
    | .ok bytes =>
        if bytes.length ≠ 4 then ⟨4, some (ADC, i32le iid ++ [0]), none⟩
        else ⟨0, some (ADC, i32le iid ++ [0]), some (toInt32 (leVal bytes))⟩

/-- `Adc::getChannelValue` (renodeMachine.cpp lines 561-592): payload is
i32 id, subcommand 1, i32 channel; the response must be 4 bytes, read as
an unsigned raw value. -/
def adc_getChannelValue (iid : Int) (channel : Int)
    (resp : Except RecvErr (List Nat)) : OpResult :=
  if iid < 0 then ⟨2, none, none⟩
  else
    match resp with
    | .error _ => ⟨5, some (ADC, i32le iid ++ ([1] ++ i32le channel)), none⟩
    | .ok bytes =>
        if bytes.length ≠ 4 then
          ⟨4, some (ADC, i32le iid ++ ([1] ++ i32le channel)), none⟩
        else
          ⟨0, some (ADC, i32le iid ++ ([1] ++ i32le channel)),
            some (leVal bytes : Int)⟩

/-- `Adc::setChannelValue` (renodeMachine.cpp lines 594-622): payload is
i32 id, subcommand 2, i32 channel, u32 raw value. -/
def adc_setChannelValue (iid : Int) (channel : Int) (raw : Nat)
    (resp : Except RecvErr (List Nat)) : OpResult :=
  if iid < 0 then ⟨2, none, none⟩
  else
    match resp with
    | .error _ =>
        ⟨5, some (ADC, i32le iid ++ ([2] ++ (i32le channel ++ le32 raw))), none⟩
    | .ok _ =>
        ⟨0, some (ADC, i32le iid ++ ([2] ++ (i32le channel ++ le32 raw))), none⟩

/-- `renode_access_width` (defs.h lines 71-77). -/
inductive AccessWidth where
  | AW_MULTI_BYTE
  | AW_BYTE
  | AW_WORD
  | AW_DWord
  | AW_QWord
deriving Repr, DecidableEq

/-- The single byte carried on the wire for an access width (defs.h
enumerator values 0, 1, 2, 4, 8). -/
def AccessWidth.wireByte : AccessWidth → Nat
  | .AW_MULTI_BYTE => 0
  | .AW_BYTE => 1
  | .AW_WORD => 2
  | .AW_DWord => 4
  | .AW_QWord => 8

/-- Bytes per element for an access width (the switch at renodeMachine.cpp
lines 884-891 and 937-944; MULTI_BYTE defaults to 1). -/
def AccessWidth.dataBytes : AccessWidth → Nat
  | .AW_MULTI_BYTE => 1
  | .AW_BYTE => 1
  | .AW_WORD => 2
  | .AW_DWord => 4
  | .AW_QWord => 8

/-- `BusContext::read` (renodeMachine.cpp lines 855-908): payload is
i32 id, operation 0, width byte, u64 address, u32 count = 1; the response
must hold at least the width's byte count, decoded little-endian. -/
def bus_read (iid : Int) (addr : Nat) (w : AccessWidth)
    (resp : Except RecvErr (List Nat)) : OpResult :=
  if iid < 0 then ⟨2, none, none⟩
  else
    match resp with
    | .error _ =>
        ⟨5, some (SYSTEM_BUS,
          i32le iid ++ ([0, w.wireByte] ++ (le64 addr ++ le32 1))), none⟩
    | .ok bytes =>
        if bytes.length < w.dataBytes then
          ⟨4, some (SYSTEM_BUS,
            i32le iid ++ ([0, w.wireByte] ++ (le64 addr ++ le32 1))), none⟩
        else
          ⟨0, some (SYSTEM_BUS,
            i32le iid ++ ([0, w.wireByte] ++ (le64 addr ++ le32 1))),
            some (leVal (bytes.take w.dataBytes) : Int)⟩

/-- `BusContext::write` (renodeMachine.cpp lines 910-958): payload is
i32 id, operation 1, width byte, u64 address, u32 count = 1, then the
value's little-endian bytes for the width. -/
def bus_write (iid : Int) (addr : Nat) (w : AccessWidth) (value : Nat)
    (resp : Except RecvErr (List Nat)) : OpResult :=
  if iid < 0 then ⟨2, none, none⟩
  else
    match resp with
    | .error _ =>
        ⟨5, some (SYSTEM_BUS, i32le iid ++ ([1, w.wireByte] ++
          (le64 addr ++ (le32 1 ++ leBytes w.dataBytes value)))), none⟩
    | .ok _ =>
        ⟨0, some (SYSTEM_BUS, i32le iid ++ ([1, w.wireByte] ++
          (le64 addr ++ (le32 1 ++ leBytes w.dataBytes value)))), none⟩

/-- C7 (error_handling): every sub-command operation of a peripheral whose
instanceId is negative returns the "not registered" error (code 2) and
writes no bytes to the socket, whatever the arguments and whatever bytes
the server would have answered. -/
theorem unregistered_refuses_subcommands (iid : Int) (h : iid < 0) :
    (∀ pin resp, gpio_getState iid pin resp = ⟨2, none, none⟩) ∧
    (∀ g : GpioLocal, g.instanceId = iid → ∀ pin st resp,
      gpio_setState g pin st resp = (⟨2, none, none⟩, [])) ∧
    (∀ resp, adc_getChannelCount iid resp = ⟨2, none, none⟩) ∧
    (∀ ch resp, adc_getChannelValue iid ch resp = ⟨2, none, none⟩) ∧
    (∀ ch raw resp, adc_setChannelValue iid ch raw resp = ⟨2, none, none⟩) ∧
    (∀ addr w resp, bus_read iid addr w resp = ⟨2, none, none⟩) ∧
    (∀ addr w value resp, bus_write iid addr w value resp = ⟨2, none, none⟩) := by
  refine ⟨?_, ?_, ?_, ?_, ?_, ?_, ?_⟩
  · intro pin resp; simp [gpio_getState, h]
  · intro g hg pin st resp; simp [gpio_setState, hg, h]
  · intro resp; simp [adc_getChannelCount, h]
  · intro ch resp; simp [adc_getChannelValue, h]
  · intro ch raw resp; simp [adc_setChannelValue, h]
  · intro addr w resp; simp [bus_read, h]
  · intro addr w value resp; simp [bus_write, h]

/-- Concrete instance of `unregistered_refuses_subcommands` at
instanceId -1 (the unregistered sentinel). -/
theorem unregistered_refuses_subcommands_witness :
    gpio_getState (-1) 3 (.ok [1]) = ⟨2, none, none⟩ ∧
    gpio_setState ⟨-1, 1, [5]⟩ 3 1 (.ok []) = (⟨2, none, none⟩, []) ∧
    adc_getChannelCount (-1) (.ok [8, 0, 0, 0]) = ⟨2, none, none⟩ ∧
    bus_read (-1) 4096 .AW_DWord (.ok [1, 2, 3, 4]) = ⟨2, none, none⟩ := by
  have hu := unregistered_refuses_subcommands (-1) (by decide)
  exact ⟨hu.1 3 (.ok [1]), hu.2.1 ⟨-1, 1, [5]⟩ rfl 3 1 (.ok []),
    hu.2.2.1 (.ok [8, 0, 0, 0]), hu.2.2.2.2.2.1 4096 .AW_DWord (.ok [1, 2, 3, 4])⟩

/-!
## Time operations: `AMachine::runFor` and `AMachine::getTime`
(renodeMachine.cpp lines 218-238 and 259-283)
-/

/-- `renode_time_unit` (defs.h lines 59-63): the value is the microsecond
multiplier. -/
inductive TimeUnit where
  | TU_MICROSECONDS
  | TU_MILLISECONDS
  | TU_SECONDS
deriving Repr, DecidableEq

/-- The microsecond multiplier of a time unit (defs.h enumerator values). -/
def TimeUnit.factor : TimeUnit → Nat
  | .TU_MICROSECONDS => 1
  | .TU_MILLISECONDS => 1000
  | .TU_SECONDS => 1000000

/-- `AMachine::runFor`: converts the duration to microseconds with uint64
arithmetic and sends the 8-byte little-endian value under RUN_FOR; any
response payload is ignored.  (`le64` keeps only the low 64 bits of the
product, exactly like the C++ uint64 multiplication — see
`runFor_getTime_spec`.) -/
def runFor (d : Nat) (u : TimeUnit) (resp : Except RecvErr (List Nat)) :
    OpResult :=
  match resp with
  | .error _ => ⟨3, some (RUN_FOR, le64 (d * u.factor)), none⟩
  | .ok _ => ⟨0, some (RUN_FOR, le64 (d * u.factor)), none⟩

/-- `AMachine::getTime`: sends an 8-byte all-zero placeholder under
GET_TIME; an 8-byte response is read as a little-endian u64 microsecond
count and divided by the unit's multiplier; any other size is an error. -/
def getTime (u : TimeUnit) (resp : Except RecvErr (List Nat)) : OpResult :=
  match resp with
  | .error _ => ⟨4, some (GET_TIME, le64 0), none⟩
  | .ok bytes =>
      if bytes.length ≠ 8 then ⟨3, some (GET_TIME, le64 0), none⟩
      else ⟨0, some (GET_TIME, le64 0), some ((leVal bytes / u.factor : Nat) : Int)⟩

theorem leBytes_mod (k n : Nat) : leBytes k (n % 256 ^ k) = leBytes k n := by
  induction k generalizing n with
  | zero => rfl
  | succ k ih =>
      have hdvd : (256 : Nat) ∣ 256 ^ (k + 1) := dvd_pow_self 256 (by omega)
      have h1 : n % 256 ^ (k + 1) % 256 = n % 256 :=
        Nat.mod_mod_of_dvd n hdvd
      have h2 : n % 256 ^ (k + 1) / 256 = n / 256 % 256 ^ k := by
        rw [pow_succ, mul_comm, Nat.mod_mul_right_div_self]
      simp [leBytes, h1, h2, ih]

/-- C8 (functional_correctness): runFor sends under RUN_FOR the 8-byte
little-endian value of duration times the unit's microsecond multiplier
(reduced modulo 2^64, as the uint64 product is); getTime sends under
GET_TIME an 8-byte all-zero placeholder and, given an 8-byte response,
returns its little-endian u64 value divided by the unit's multiplier. -/
theorem runFor_getTime_spec (d : Nat) (u : TimeUnit)
    (resp : Except RecvErr (List Nat)) :
    (runFor d u resp).sent = some (RUN_FOR, le64 (d * u.factor)) ∧
    le64 (d * u.factor) = le64 ((d * u.factor) % 2 ^ 64) ∧
    (getTime u resp).sent = some (GET_TIME, List.replicate 8 0) ∧
    (∀ t : Nat, t < 2 ^ 64 →
      (getTime u (.ok (le64 t))).val = some ((t / u.factor : Nat) : Int)) ∧
    (∀ bytes : List Nat, bytes.length = 8 →
      (getTime u (.ok bytes)).val = some ((leVal bytes / u.factor : Nat) : Int)) := by
  have hz : le64 0 = List.replicate 8 0 := by decide
  refine ⟨?_, ?_, ?_, ?_, ?_⟩
  · cases resp <;> rfl
  · have := leBytes_mod 8 (d * u.factor)
    unfold le64
    rw [show ((2 : Nat) ^ 64) = 256 ^ 8 by norm_num]
    exact this.symm
  · cases resp with
    | error e => simp [getTime, hz]
    | ok bytes =>
        by_cases hb : bytes.length ≠ 8 <;> simp [getTime, hb, hz]
  · intro t ht
    have hlen : (le64 t).length = 8 := by simp [le64]
    have hval : leVal (le64 t) = t := by
      unfold le64
      exact leVal_leBytes (by norm_num at ht ⊢; omega)
    simp [getTime, hlen, hval]
  · intro bytes hb
    simp [getTime, hb]

/-- Concrete instance of `runFor_getTime_spec`: 100 milliseconds and a
response of 5000000 microseconds queried in seconds. -/
theorem runFor_getTime_spec_witness :
    (runFor 100 .TU_MILLISECONDS (.ok [])).sent =
      some (RUN_FOR, le64 100000) ∧
    (getTime .TU_SECONDS (.ok (le64 5000000))).val = some (5 : Int) := by
  have h := runFor_getTime_spec 100 .TU_MILLISECONDS (.ok [])
  have h4 := (runFor_getTime_spec 100 .TU_SECONDS (.ok [])).2.2.2.1
    5000000 (by norm_num)
  refine ⟨h.1, ?_⟩
  rw [h4]
  norm_num [TimeUnit.factor]

/-!
## `AMachine::loadConfiguration` (renodeMachine.cpp lines 87-103)

The source decides between the two monitor commands with
`config.find(".elf") != npos || config.find(".ELF") != npos`, a substring
search, not a file-extension test.
-/

/-- The lowercase needle the source searches for. -/
def elfLower : List Char := ['.', 'e', 'l', 'f']

/-- The uppercase needle the source searches for. -/
def elfUpper : List Char := ['.', 'E', 'L', 'F']

/-- `std::string::find(needle) != npos`: whether `needle` occurs as a
contiguous substring, scanning from each position. -/
def containsSub (needle : List Char) : List Char → Bool
  | [] => needle.isEmpty
  | c :: rest => needle.isPrefixOf (c :: rest) || containsSub needle rest

theorem containsSub_iff_infix (n hay : List Char) :
    containsSub n hay = true ↔ n <:+: hay := by
  induction hay with
  | nil => simp [containsSub, List.isEmpty_iff, List.infix_nil]
  | cons c r ih =>
      simp [containsSub, Bool.or_eq_true, List.isPrefixOf_iff_prefix, ih,
        List.infix_cons_iff]

/-- `AMachine::loadConfiguration`, returning the monitor command line it
issues: the `Monitor::loadELF` line when the path contains ".elf" or
".ELF" as a substring, otherwise the `Monitor::loadPlatformDescription`
line (renodeInterface.cpp lines 652-660 supply the command text). -/
def loadConfiguration (config : List Char) : List Char :=
  if containsSub elfLower config || containsSub elfUpper config then
    ("sysbus LoadELF @").toList ++ config
  else ("machine LoadPlatformDescription @").toList ++ config

/-- Claim-side predicate, following the spec's words: the path's file
extension is case-insensitively ".elf", i.e. the path lowercased ends in
the four characters dot, e, l, f. -/
def hasElfExtensionCI (p : List Char) : Bool :=
  elfLower.isSuffixOf (p.map Char.toLower)

/-- C9 counterexample: the path "a.Elf" has extension ".elf"
case-insensitively, yet loadConfiguration issues the
LoadPlatformDescription command; the path "b.elfdir/x.repl" does not have
extension ".elf", yet loadConfiguration issues the LoadELF command.  Both
directions of the claim fail. -/
theorem loadConfiguration_extension_cex :
    hasElfExtensionCI ("a.Elf").toList = true ∧
    loadConfiguration ("a.Elf").toList =
      ("machine LoadPlatformDescription @a.Elf").toList ∧
    hasElfExtensionCI ("b.elfdir/x.repl").toList = false ∧
    loadConfiguration ("b.elfdir/x.repl").toList =
      ("sysbus LoadELF @b.elfdir/x.repl").toList := by
  refine ⟨by decide, by decide, by decide, by decide⟩

/-- C9 as amended: loadConfiguration issues the LoadELF monitor command
when and only when the path contains ".elf" or ".ELF" as a substring
(anywhere, case-sensitively for each variant), and otherwise issues the
LoadPlatformDescription command. -/
theorem loadConfiguration_substring_spec (p : List Char) :
    (loadConfiguration p = ("sysbus LoadELF @").toList ++ p ↔
      (elfLower <:+: p ∨ elfUpper <:+: p)) ∧
    (¬ (elfLower <:+: p ∨ elfUpper <:+: p) →
      loadConfiguration p = ("machine LoadPlatformDescription @").toList ++ p) := by
  by_cases hc : elfLower <:+: p ∨ elfUpper <:+: p
  · have hb : (containsSub elfLower p || containsSub elfUpper p) = true := by
      simpa [Bool.or_eq_true, containsSub_iff_infix] using hc
    constructor
    · simp [loadConfiguration, hb, hc]
    · intro hn; exact absurd hc hn
  · have hA : containsSub elfLower p = false := by
      rw [← Bool.not_eq_true, containsSub_iff_infix]
      exact fun hx => hc (Or.inl hx)
    have hB : containsSub elfUpper p = false := by
      rw [← Bool.not_eq_true, containsSub_iff_infix]
      exact fun hx => hc (Or.inr hx)
    have hb : (containsSub elfLower p || containsSub elfUpper p) = false := by
      rw [hA, hB]; rfl
    constructor
    · simp only [loadConfiguration, hb, Bool.false_eq_true, if_false]
      constructor
      · intro heq
        have hl := congrArg List.length heq
        simp [List.length_append] at hl
        exact absurd hl (by omega)
      · intro hor; exact absurd hor hc
    · intro _
      simp [loadConfiguration, hb]

/-- Concrete instance of `loadConfiguration_substring_spec` at the path
"x.repl" (no ".elf"/".ELF" substring). -/
theorem loadConfiguration_substring_spec_witness :
    loadConfiguration ("x.repl").toList =
      ("machine LoadPlatformDescription @").toList ++ ("x.repl").toList :=
  (loadConfiguration_substring_spec ("x.repl").toList).2 (by decide)

/-!
## GPIO local callbacks (C10)

`Gpio::registerStateChangeCallback` has two overloads
(renodeMachine.cpp lines 729-781 and 784-792); both insert the user
callback into the same local `callbacks` map keyed by a fresh handle, the
pin argument of the first overload being captured only by the wrapper
registered with the global event registry.  `Gpio::setState` iterates the
whole map after a successful exchange.
-/

/-- The per-pin overload of `registerStateChangeCallback`: allocates the
handle, registers a wrapper with the global registry under `serverEd`,
sends the REGISTER_EVENT payload, and only on success records the callback
locally.  Result: (new state, operation result). -/
def registerPinCallback (g : GpioLocal) (pin : Int) (serverEd : Nat)
    (resp : Except RecvErr (List Nat)) : GpioLocal × OpResult :=
  if g.instanceId < 0 then (g, ⟨2, none, none⟩)
  else
    match resp with
    | .error _ =>
        (⟨g.instanceId, g.nextCbHandle + 1, g.callbacks⟩,
          ⟨4, some (GPIO_CMD, i32le g.instanceId ++
            ([2] ++ (i32le pin ++ le32 serverEd))), none⟩)
    | .ok _ =>
        (⟨g.instanceId, g.nextCbHandle + 1, g.callbacks ++ [g.nextCbHandle]⟩,
          ⟨0, some (GPIO_CMD, i32le g.instanceId ++
            ([2] ++ (i32le pin ++ le32 serverEd))), none⟩)

/-- The legacy local-only overload of `registerStateChangeCallback`
(renodeMachine.cpp lines 784-792): no guard on instanceId, no socket
traffic; inserts into the same map.  Result: (new state, handle). -/
def registerLocalCallback (g : GpioLocal) : GpioLocal × Nat :=
  (⟨g.instanceId, g.nextCbHandle + 1, g.callbacks ++ [g.nextCbHandle]⟩,
    g.nextCbHandle)

/-- C10 (functional_correctness): after a setState whose exchange
succeeds, every locally registered callback — whichever overload
registered it, and whatever pin it was registered for — is invoked exactly
once with (pin, state), in map order; when the exchange fails no callback
is invoked; and both registration overloads append to the same map. -/
theorem setState_invokes_all_callbacks (g : GpioLocal) (pin : Int)
    (state : Nat) (bytes : List Nat) (e : RecvErr)
    (h : 0 ≤ g.instanceId) :
    (gpio_setState g pin state (.ok bytes)).2 =
      g.callbacks.map (fun hd => (hd, pin, state)) ∧
    (gpio_setState g pin state (.error e)).2 = [] ∧
    (registerLocalCallback g).1.callbacks = g.callbacks ++ [g.nextCbHandle] ∧
    (∀ pin2 ed, (registerPinCallback g pin2 ed (.ok bytes)).1.callbacks =
      g.callbacks ++ [g.nextCbHandle]) := by
  have hn : ¬ g.instanceId < 0 := not_lt.mpr h
  refine ⟨?_, ?_, rfl, ?_⟩
  · simp [gpio_setState, hn]
  · simp [gpio_setState, hn]
  · intro pin2 ed
    simp [registerPinCallback, hn]

/-- Concrete instance of `setState_invokes_all_callbacks`: a registered
Gpio with two local callbacks (handles 1 and 2, registered for other
pins or no pin), setState on pin 4 to High. -/
theorem setState_invokes_all_callbacks_witness :
    (gpio_setState ⟨6, 3, [1, 2]⟩ 4 1 (.ok [])).2 = [(1, 4, 1), (2, 4, 1)] ∧
    (gpio_setState ⟨6, 3, [1, 2]⟩ 4 1 (.error .readReturnCode)).2 = [] := by
  have h := setState_invokes_all_callbacks ⟨6, 3, [1, 2]⟩ 4 1 []
    .readReturnCode (by decide)
  exact ⟨h.1, h.2.1⟩

end Renode
